import Mathlib

/-!
Verification of the codeAgent-sync relay core against its specification.

The definitions below are a shallow embedding of the repository's code:

* `Store`, `insertEvent`, `listEvents`, `getLastSeq`, `getAgent`,
  `setAgentStatus`, `touchAgent`, `registerAgent` embed the PostgreSQL-backed
  store module (`store.ts` / migration SQL): the `events` table is a list in
  insertion order with a global `bigserial` seq counter, the `agents` table a
  list of rows with a unique name index.
* `World`, `broadcast`, `emitAgentStatus`, `markOnline`, `markOffline`,
  `handleSubscribe`, `handleIncomingEvent`, `handleHeartbeat`,
  `handleConnection`, `sweepOne`, `sweep` embed the realtime hub
  (`realtime.ts`).
* `getMessages`, `clampLimit` embed the REST backlog endpoint
  (`GET /messages` in the backend's `index.ts`).
* `chunkOutput`, `ClientState`, `flushOutput`, `clientStep`,
  `scheduleReconnect`, `reconnectDelayAfter`, `loadLastSeq` embed the
  pc-companion client (`apps/pc-companion/src/index.ts`).

Timestamps and sequence numbers are `Int`; websocket connections are
identified by `Nat` handles, with the set of OPEN handles carried in the
world state.
-/

namespace CodeAgentSync

/-- Payload of an event: the fields the core reads (`status` for
`agent_status` events, `content` for message events); otherwise opaque. -/
structure Payload where
  status : Option String := none
  content : Option String := none
deriving DecidableEq, Repr

/-- A row of the `events` table (`EventRecord` in `types.ts`). -/
structure EventRecord where
  id : Nat
  agent_id : String
  seq : Int
  type : String
  sender : String
  payload : Payload
  created_at : Int
  user_id : Option String
  tenant_id : Option String
deriving DecidableEq, Repr

/-- A row of the `agents` table (`AgentRow` plus the columns touched by
`registerAgent`). -/
structure AgentRow where
  id : String
  name : String
  platform : Option String
  meta : Option String
  user_id : Option String
  tenant_id : Option String
  status : String
  last_seen_at : Option Int
  created_at : Int
  updated_at : Int
deriving DecidableEq, Repr

/-- The durable store: the two tables plus the `bigserial` seq counter and
an id counter for event rows. Events are kept in insertion order. -/
structure Store where
  agents : List AgentRow
  events : List EventRecord
  nextSeq : Int
  nextEventId : Nat
deriving DecidableEq, Repr

/-- `insertEvent` of `store.ts`: INSERT INTO events, the store assigning the
next seq, returning the stored row. -/
def insertEvent (s : Store) (agent_id type sender : String) (payload : Payload)
    (user_id tenant_id : Option String) (now : Int) : Store × EventRecord :=
  let e : EventRecord :=
    { id := s.nextEventId, agent_id := agent_id, seq := s.nextSeq, type := type,
      sender := sender, payload := payload, created_at := now,
      user_id := user_id, tenant_id := tenant_id }
  ({ s with events := s.events ++ [e], nextSeq := s.nextSeq + 1,
            nextEventId := s.nextEventId + 1 }, e)

/-- The WHERE clause of `listEvents`: agent match, `seq > $2`, and the
optional `type = ANY($4)` filter, which `listEvents` adds only when a
nonempty `types` array is passed. -/
def eventMatches (agent_id : String) (since_seq : Int) (types : Option (List String))
    (e : EventRecord) : Bool :=
  e.agent_id == agent_id && decide (since_seq < e.seq) &&
    (match types with
     | some ts => if ts.length > 0 then ts.contains e.type else true
     | none => true)

/-- `listEvents` of `store.ts`: SELECT ... WHERE agent_id = $1 AND seq > $2
[AND type = ANY($4)] ORDER BY seq ASC LIMIT $3. -/
def listEvents (s : Store) (agent_id : String) (since_seq : Int) (limit : Nat)
    (types : Option (List String)) : List EventRecord :=
  (((s.events.filter (eventMatches agent_id since_seq types)).mergeSort
      (fun a b => decide (a.seq ≤ b.seq))).take limit)

/-- `getLastSeq` of `store.ts`: COALESCE(MAX(seq), 0) over the agent's
events. -/
def getLastSeq (s : Store) (agentId : String) : Int :=
  (s.events.filter (fun e => e.agent_id == agentId)).foldl (fun m e => max m e.seq) 0

/-- `getAgent` of `store.ts`: SELECT ... FROM agents WHERE id = $1. -/
def getAgent (s : Store) (agentId : String) : Option AgentRow :=
  s.agents.find? (fun r => r.id == agentId)

/-- `setAgentStatus` of `store.ts`: UPDATE agents SET status = $2 WHERE
id = $1 AND status <> $2 RETURNING id; the Bool is `rowCount > 0`. -/
def setAgentStatus (s : Store) (agentId status : String) (now : Int) :
    Store × Bool :=
  ({ s with agents := s.agents.map (fun r =>
      if r.id == agentId && r.status != status then
        { r with status := status, updated_at := now } else r) },
   s.agents.any (fun r => r.id == agentId && r.status != status))

/-- `touchAgent` of `store.ts`: UPDATE agents SET last_seen_at = NOW()
WHERE id = $1. -/
def touchAgent (s : Store) (agentId : String) (now : Int) : Store :=
  { s with agents := s.agents.map (fun r =>
      if r.id == agentId then
        { r with last_seen_at := some now, updated_at := now } else r) }

/-- Input of `registerAgent` (`RegisterAgentInput` in `types.ts`). -/
structure RegisterAgentInput where
  name : String
  platform : Option String := none
  meta : Option String := none
  user_id : Option String := none
  tenant_id : Option String := none
deriving DecidableEq, Repr

/-- `registerAgent` of `store.ts`: INSERT ... ON CONFLICT (name) DO UPDATE
(COALESCE keeps existing values when the input omits them) RETURNING id.
`freshId` stands for the id the database would generate for a new row. -/
def registerAgent (s : Store) (freshId : String) (input : RegisterAgentInput)
    (now : Int) : Store × String :=
  match s.agents.find? (fun r => r.name == input.name) with
  | some row =>
    ({ s with agents := s.agents.map (fun r =>
        if r.name == input.name then
          { r with
              platform := match input.platform with
                | some p => some p
                | none => r.platform,
              meta := match input.meta with
                | some m => some m
                | none => r.meta,
              user_id := match input.user_id with
                | some u => some u
                | none => r.user_id,
              tenant_id := match input.tenant_id with
                | some t => some t
                | none => r.tenant_id,
              updated_at := now }
        else r) }, row.id)
  | none =>
    let row : AgentRow :=
      { id := freshId, name := input.name, platform := input.platform,
        meta := input.meta, user_id := input.user_id,
        tenant_id := input.tenant_id, status := "offline",
        last_seen_at := some now, created_at := now, updated_at := now }
    ({ s with agents := s.agents ++ [row] }, freshId)

/-- Store well-formedness: seqs strictly increase along the events list
(append order with a monotone global counter), every seq is at least 1
(`bigserial` starts at 1), agent ids and names are unique (primary key and
unique index). -/
def Store.WF (s : Store) : Prop :=
  (s.events.map (·.seq)).Pairwise (· < ·) ∧
  (∀ e ∈ s.events, 1 ≤ e.seq) ∧
  (s.agents.map (·.id)).Nodup ∧
  (s.agents.map (·.name)).Nodup

instance (s : Store) : Decidable s.WF := by
  unfold Store.WF; infer_instance

/-- `limit` handling of `GET /messages`: a finite query value is clamped
into 1..200 (`Math.min(Math.max(limitRaw, 1), 200)`); a non-numeric query
(`none`) falls back to 50. -/
def clampLimit (limitQ : Option Int) : Int :=
  match limitQ with
  | some v => min (max v 1) 200
  | none => 50

/-- `since_seq` handling of `GET /messages`: non-numeric (`none`) falls
back to 0. -/
def sinceOf (sinceQ : Option Int) : Int :=
  match sinceQ with
  | some v => v
  | none => 0

/-- `GET /messages` of the backend: listEvents with the clamped limit and
the fixed `["message_in", "message_out"]` type filter. -/
def getMessages (s : Store) (agent_id : String) (sinceQ limitQ : Option Int) :
    List EventRecord :=
  listEvents s agent_id (sinceOf sinceQ) (clampLimit limitQ).toNat
    (some ["message_in", "message_out"])

/-! ## Realtime hub (`realtime.ts`) -/

/-- `OFFLINE_GRACE_MS` of `realtime.ts`. -/
def OFFLINE_GRACE_MS : Int := 30000

/-- `ClientInfo` of `realtime.ts`: a live connection entry. The `ws` handle
is a `Nat` identifier. -/
structure ClientInfo where
  ws : Nat
  agentId : String
  role : String
deriving DecidableEq, Repr

/-- `AgentState` of `realtime.ts`: per-agent liveness bookkeeping. -/
structure AgentState where
  lastHeartbeat : Int
  pcConnections : List Nat
deriving DecidableEq, Repr

/-- A message the server sends over a websocket. -/
inductive OutMsg where
  | hello (agent_id : String) (last_seq : Int)
  | eventsBatch (events : List EventRecord)
  | event (e : EventRecord)
  | errorMsg (message : String)
deriving DecidableEq, Repr

/-- The hub's process state: the store plus `clientsByAgent`, `agentStates`
and the set of websocket handles whose readyState is OPEN. -/
structure World where
  store : Store
  clientsByAgent : List (String × List ClientInfo)
  agentStates : List (String × AgentState)
  openConns : List Nat
deriving DecidableEq, Repr

/-- `clientsByAgent.get(agentId)`, with a missing entry read as empty. -/
def lookupClients (w : World) (agentId : String) : List ClientInfo :=
  match w.clientsByAgent.find? (fun p => p.1 == agentId) with
  | some p => p.2
  | none => []

/-- `agentStates.get(agentId)`. -/
def lookupState (w : World) (agentId : String) : Option AgentState :=
  match w.agentStates.find? (fun p => p.1 == agentId) with
  | some p => some p.2
  | none => none

/-- Replace (or append) the client list of one agent. -/
def setClients (w : World) (agentId : String) (cs : List ClientInfo) : World :=
  if w.clientsByAgent.any (fun p => p.1 == agentId) then
    { w with clientsByAgent := w.clientsByAgent.map (fun p =>
        if p.1 == agentId then (p.1, cs) else p) }
  else
    { w with clientsByAgent := w.clientsByAgent ++ [(agentId, cs)] }

/-- `getState` of `realtime.ts`: fetch the agent's state, creating it with
`Date.now()` and no connections when absent. Returns the state and the
world with the entry present. -/
def getState (w : World) (agentId : String) (now : Int) : AgentState × World :=
  match lookupState w agentId with
  | some st => (st, w)
  | none =>
    let st : AgentState := { lastHeartbeat := now, pcConnections := [] }
    (st, { w with agentStates := w.agentStates ++ [(agentId, st)] })

/-- Update the state entry of one agent in place (the entry must exist for
the update to land, as with mutating the object held in the JS Map). -/
def updateState (w : World) (agentId : String) (f : AgentState → AgentState) :
    World :=
  { w with agentStates := w.agentStates.map (fun p =>
      if p.1 == agentId then (p.1, f p.2) else p) }

/-- `send` of `realtime.ts`: deliver only when the socket is OPEN. The
result is the list of (ws, message) deliveries the call performs. -/
def sendTo (w : World) (ws : Nat) (m : OutMsg) : List (Nat × OutMsg) :=
  if ws ∈ w.openConns then [(ws, m)] else []

/-- `broadcast` of `realtime.ts`: send to every registered client of the
agent. -/
def broadcast (w : World) (agentId : String) (m : OutMsg) :
    List (Nat × OutMsg) :=
  (lookupClients w agentId).flatMap (fun c => sendTo w c.ws m)

/-- `emitAgentStatus` of `realtime.ts`: append an `agent_status` event from
`system` with the given status payload, then broadcast it. -/
def emitAgentStatus (w : World) (agentId status : String) (now : Int) :
    World × List (Nat × OutMsg) :=
  let p := insertEvent w.store agentId "agent_status" "system"
    { status := some status, content := none } none none now
  let w' := { w with store := p.1 }
  (w', broadcast w' agentId (OutMsg.event p.2))

/-- `markOnline` of `realtime.ts`: conditional status update, touch, and an
`online` status event only on an actual transition. -/
def markOnline (w : World) (agentId : String) (now : Int) :
    World × List (Nat × OutMsg) :=
  let p := setAgentStatus w.store agentId "online" now
  let w1 := { w with store := touchAgent p.1 agentId now }
  if p.2 then emitAgentStatus w1 agentId "online" now else (w1, [])

/-- `markOffline` of `realtime.ts`: conditional status update and an
`offline` status event only on an actual transition. -/
def markOffline (w : World) (agentId : String) (now : Int) :
    World × List (Nat × OutMsg) :=
  let p := setAgentStatus w.store agentId "offline" now
  let w1 := { w with store := p.1 }
  if p.2 then emitAgentStatus w1 agentId "offline" now else (w1, [])

/-- `handleSubscribe` of `realtime.ts`: catch-up batch with no type filter,
`since_seq ?? 0`, at the fixed cap of 200. -/
def handleSubscribe (w : World) (agentId : String) (ws : Nat)
    (sinceSeq : Option Int) : List (Nat × OutMsg) :=
  sendTo w ws (OutMsg.eventsBatch
    (listEvents w.store agentId (sinceSeq.getD 0) 200 none))

/-- The `event` field of an inbound publish message, after the shape checks
of `handleIncomingEvent` (a non-object payload is read as `{}`). -/
structure IncomingEvent where
  type : Option String
  sender : Option String
  payload : Payload
  user_id : Option String
  tenant_id : Option String
deriving DecidableEq, Repr

/-- `handleIncomingEvent` of `realtime.ts`: a malformed message (`none`) is
ignored; otherwise the event is appended with defaulted type/sender and the
stored row is broadcast to the agent's clients. -/
def handleIncomingEvent (w : World) (agentId : String)
    (msg : Option IncomingEvent) (now : Int) : World × List (Nat × OutMsg) :=
  match msg with
  | none => (w, [])
  | some ev =>
    let p := insertEvent w.store agentId (ev.type.getD "message_out")
      (ev.sender.getD "pc") ev.payload ev.user_id ev.tenant_id now
    let w' := { w with store := p.1 }
    (w', broadcast w' agentId (OutMsg.event p.2))

/-- `handleHeartbeat` of `realtime.ts`: refresh the agent's last heartbeat,
`markOnline`, then always emit a `heartbeat` status event. -/
def handleHeartbeat (w : World) (agentId : String) (now : Int) :
    World × List (Nat × OutMsg) :=
  let w0 := (getState w agentId now).2
  let w1 := updateState w0 agentId (fun st => { st with lastHeartbeat := now })
  let p1 := markOnline w1 agentId now
  let p2 := emitAgentStatus p1.1 agentId "heartbeat" now
  (p2.1, p1.2 ++ p2.2)

/-- `handleConnection` of `realtime.ts` up to the greeting: validate the
agent, register the client, attach producer-role connections to the
liveness state with `markOnline`, and send the `hello`. The third component
is the list of connections the handler closed. -/
def handleConnection (w : World) (ws : Nat) (agentId role : String)
    (now : Int) : World × List (Nat × OutMsg) × List Nat :=
  match getAgent w.store agentId with
  | none => (w, sendTo w ws (OutMsg.errorMsg "Unknown agent_id."), [ws])
  | some _ =>
    let w1 := setClients w agentId
      (lookupClients w agentId ++ [{ ws := ws, agentId := agentId, role := role }])
    let w2 := (getState w1 agentId now).2
    let p :=
      if role == "pc" then
        let w3 := updateState w2 agentId (fun st =>
          { st with
              pcConnections :=
                if ws ∈ st.pcConnections then st.pcConnections
                else st.pcConnections ++ [ws],
              lastHeartbeat := now })
        markOnline w3 agentId now
      else (w2, [])
    (p.1, p.2 ++ sendTo p.1 ws (OutMsg.hello agentId (getLastSeq p.1.store agentId)), [])

/-- One iteration of the sweep loop of `startOfflineSweep`, for one agent:
stale agents with no producer connections are marked offline; stale agents
with producer connections have those connections terminated (closed and
removed), the set cleared, and are marked offline. Returns the new world,
the broadcasts performed, and the terminated connections. -/
def sweepOne (w : World) (now : Int) (agentId : String) :
    World × List (Nat × OutMsg) × List Nat :=
  match lookupState w agentId with
  | none => (w, [], [])
  | some st =>
    if st.pcConnections.isEmpty then
      if OFFLINE_GRACE_MS < now - st.lastHeartbeat then
        let p := markOffline w agentId now
        (p.1, p.2, [])
      else (w, [], [])
    else
      if OFFLINE_GRACE_MS < now - st.lastHeartbeat then
        let w1 := { w with
          openConns := w.openConns.filter (fun c => !st.pcConnections.contains c) }
        let w2 := updateState w1 agentId (fun s => { s with pcConnections := [] })
        let p := markOffline w2 agentId now
        (p.1, p.2, st.pcConnections)
      else (w, [], [])

/-- One fold step of the sweep loop, accumulating broadcasts and
terminated connections. -/
def sweepStep (now : Int) (acc : World × List (Nat × OutMsg) × List Nat)
    (entry : String × AgentState) : World × List (Nat × OutMsg) × List Nat :=
  let p := sweepOne acc.1 now entry.1
  (p.1, acc.2.1 ++ p.2.1, acc.2.2 ++ p.2.2)

/-- The whole sweep of `startOfflineSweep`: iterate over the tracked
agents. -/
def sweep (w : World) (now : Int) : World × List (Nat × OutMsg) × List Nat :=
  w.agentStates.foldl (sweepStep now) (w, [], [])

/-- The status column of an agent's row. -/
def agentStatus (s : Store) (agentId : String) : Option String :=
  (getAgent s agentId).map (fun r => r.status)

/-- Hub well-formedness: the store is well-formed, tracked liveness keys
are unique and belong to existing agents. -/
def World.WF (w : World) : Prop :=
  w.store.WF ∧
  (w.agentStates.map (·.1)).Nodup ∧
  (∀ p ∈ w.agentStates, ∃ r ∈ w.store.agents, r.id = p.1)

instance (w : World) : Decidable w.WF := by
  unfold World.WF; infer_instance

/-! ## Reconnecting client (`apps/pc-companion/src/index.ts`) -/

/-- `OUTPUT_CHUNK_SIZE` of the client. -/
def OUTPUT_CHUNK_SIZE : Nat := 4000

/-- The chunking loop of `flushOutput`:
`for (i = 0; i < payload.length; i += OUTPUT_CHUNK_SIZE) slice(i, i + OUTPUT_CHUNK_SIZE)`.
The buffered text is modelled as a list of characters. -/
def chunkOutput (s : List Char) : List (List Char) :=
  if s.isEmpty then []
  else s.take OUTPUT_CHUNK_SIZE :: chunkOutput (s.drop OUTPUT_CHUNK_SIZE)
termination_by s.length
decreasing_by
  rename_i h
  rw [List.isEmpty_iff] at h
  have hp : 0 < s.length := List.length_pos.mpr h
  simp only [List.length_drop, OUTPUT_CHUNK_SIZE]
  omega

/-- The client's output-path state: the output buffer, whether the socket is
OPEN, whether the 800ms idle flush timer is pending, and the contents of the
`message_out` events sent so far, in order. -/
structure ClientState where
  buffer : List Char
  wsOpen : Bool
  flushTimer : Bool
  sent : List (List Char)
deriving DecidableEq, Repr

/-- `flushOutput` of the client: do nothing on an empty buffer or a closed
socket (the buffer is retained); otherwise clear the buffer and send one
`message_out` event per chunk. -/
def flushOutput (c : ClientState) : ClientState :=
  if c.buffer.isEmpty then c
  else if !c.wsOpen then c
  else { c with buffer := [], sent := c.sent ++ chunkOutput c.buffer }

/-- The scheduler-visible events of the client's output path. -/
inductive ClientEvent where
  | onData (d : List Char)
  | idleFire
  | sockOpen
  | shutdownSignal
deriving DecidableEq, Repr

/-- One step of the client's output path, faithful to the handlers in
`spawnCodex` (`onData`: append and re-arm the 800ms timer), the timer
callback (flush), the websocket `open` handler (flush after subscribing)
and `shutdown` (final best-effort flush). -/
def clientStep (c : ClientState) : ClientEvent → ClientState
  | ClientEvent.onData d => { c with buffer := c.buffer ++ d, flushTimer := true }
  | ClientEvent.idleFire =>
    if c.flushTimer then flushOutput { c with flushTimer := false } else c
  | ClientEvent.sockOpen => flushOutput { c with wsOpen := true }
  | ClientEvent.shutdownSignal => flushOutput c

/-- A run of the client's output path from a state through a list of
events. -/
def clientRun (c : ClientState) (evs : List ClientEvent) : ClientState :=
  evs.foldl clientStep c

/-- `scheduleReconnect` of the client: use the current delay, then double
it capped at 30s. Returns (scheduled delay, new stored delay). -/
def scheduleReconnect (reconnectDelay : Nat) : Nat × Nat :=
  (reconnectDelay, min (reconnectDelay * 2) 30000)

/-- The stored `reconnectDelay` after `n` consecutive transport failures
since the last successful connect (`let reconnectDelay = 1000` initially,
and the `open` handler resets it to 1000). -/
def reconnectDelayAfter : Nat → Nat
  | 0 => 1000
  | n + 1 => (scheduleReconnect (reconnectDelayAfter n)).2

/-- The delay actually scheduled by the `n`-th failure (0-indexed) of a
run of consecutive failures. -/
def scheduledDelay (n : Nat) : Nat :=
  (scheduleReconnect (reconnectDelayAfter n)).1

/-- The `open` handler's reset of the reconnect delay
(`reconnectDelay = 1000`). -/
def delayOnOpen : Nat := 1000

/-- Outcome of reading and parsing the client's local state file
(`~/.companion/<agent_id>.json`): the read can throw (missing or
unreadable file), `JSON.parse` can throw, and a parsed object may lack a
numeric `last_seq` field. -/
inductive StateFile where
  | missing
  | invalid
  | parsed (last_seq : Option (Option Int))
deriving DecidableEq, Repr

/-- `loadLastSeq` of the client: any failure, and a missing or non-numeric
`last_seq` (`some none` is a present but non-numeric field), yields 0. -/
def loadLastSeq : StateFile → Int
  | StateFile.missing => 0
  | StateFile.invalid => 0
  | StateFile.parsed none => 0
  | StateFile.parsed (some none) => 0
  | StateFile.parsed (some (some n)) => n

/-! ## Helper lemmas about the store -/

lemma events_pairwise {s : Store} (hwf : s.WF) :
    s.events.Pairwise (fun e₁ e₂ => e₁.seq < e₂.seq) :=
  List.pairwise_map.mp hwf.1

lemma listEvents_eq {s : Store} (hwf : s.WF) (a : String) (since : Int)
    (lim : Nat) (tf : Option (List String)) :
    listEvents s a since lim tf =
      (s.events.filter (eventMatches a since tf)).take lim := by
  unfold listEvents
  congr 1
  apply List.mergeSort_of_sorted
  exact ((events_pairwise hwf).filter _).imp
    (fun h => decide_eq_true (le_of_lt h))

lemma mem_listEvents {s : Store} (hwf : s.WF) {a : String} {since : Int}
    {lim : Nat} {tf : Option (List String)} {e : EventRecord}
    (he : e ∈ listEvents s a since lim tf) :
    e ∈ s.events ∧ eventMatches a since tf e = true := by
  rw [listEvents_eq hwf] at he
  exact List.mem_filter.mp (List.Sublist.mem he (List.take_sublist _ _))

lemma eventMatches_agent_seq {a : String} {since : Int}
    {tf : Option (List String)} {e : EventRecord}
    (h : eventMatches a since tf e = true) :
    e.agent_id = a ∧ since < e.seq := by
  unfold eventMatches at h
  simp only [Bool.and_eq_true, beq_iff_eq, decide_eq_true_eq] at h
  exact ⟨h.1.1, h.1.2⟩

lemma getAgent_id {s : Store} {a : String} {r : AgentRow}
    (h : getAgent s a = some r) : r.id = a := by
  have := List.find?_some h
  simpa using this

lemma getAgent_mem {s : Store} {a : String} {r : AgentRow}
    (h : getAgent s a = some r) : r ∈ s.agents :=
  List.mem_of_find?_eq_some h

lemma find?_id_map (l : List AgentRow) (g : AgentRow → AgentRow)
    (hg : ∀ r, (g r).id = r.id) (a : String) :
    (l.map g).find? (fun r => r.id == a) =
      (l.find? (fun r => r.id == a)).map g := by
  have hp : ((fun r : AgentRow => r.id == a) ∘ g) = (fun r => r.id == a) := by
    funext r
    simp [Function.comp, hg]
  rw [List.find?_map, hp]

lemma find?_key_map {β : Type} (l : List (String × β)) (g : String × β → String × β)
    (hg : ∀ p, (g p).1 = p.1) (a : String) :
    (l.map g).find? (fun p => p.1 == a) =
      (l.find? (fun p => p.1 == a)).map g := by
  have hp : ((fun p : String × β => p.1 == a) ∘ g) = (fun p => p.1 == a) := by
    funext p
    simp [Function.comp, hg]
  rw [List.find?_map, hp]

lemma getAgent_setAgentStatus (s : Store) (b status : String) (now : Int)
    (a : String) :
    getAgent (setAgentStatus s b status now).1 a =
      (getAgent s a).map (fun r =>
        if r.id == b && r.status != status then
          { r with status := status, updated_at := now } else r) := by
  unfold getAgent setAgentStatus
  exact find?_id_map _ _ (by
    intro r
    by_cases h : r.id == b && r.status != status <;> simp [h]) a

lemma getAgent_touchAgent (s : Store) (b : String) (now : Int) (a : String) :
    getAgent (touchAgent s b now) a =
      (getAgent s a).map (fun r =>
        if r.id == b then
          { r with last_seen_at := some now, updated_at := now } else r) := by
  unfold getAgent touchAgent
  exact find?_id_map _ _ (by
    intro r
    by_cases h : r.id == b <;> simp [h]) a

lemma agentStatus_some {s : Store} {a st : String}
    (h : agentStatus s a = some st) :
    ∃ r, getAgent s a = some r ∧ r.status = st := by
  unfold agentStatus at h
  cases hh : getAgent s a with
  | none => rw [hh] at h; simp at h
  | some r => rw [hh] at h; simp at h; exact ⟨r, rfl, h⟩

lemma any_ne_status_false {s : Store} {a st : String}
    (hnd : (s.agents.map (·.id)).Nodup)
    (h : agentStatus s a = some st) :
    s.agents.any (fun r => r.id == a && r.status != st) = false := by
  rw [Bool.eq_false_iff]
  intro hany
  obtain ⟨r, hr, hpred⟩ := List.any_eq_true.mp hany
  obtain ⟨row, hrow, hrs⟩ := agentStatus_some h
  simp only [Bool.and_eq_true, beq_iff_eq, bne_iff_ne, ne_eq] at hpred
  have hra : r.id = row.id := hpred.1.trans (getAgent_id hrow).symm
  have : r = row := List.inj_on_of_nodup_map hnd hr (getAgent_mem hrow) hra
  exact hpred.2 (this ▸ hrs)

lemma any_ne_status_true {s : Store} {a st st' : String}
    (h : agentStatus s a = some st) (hne : st ≠ st') :
    s.agents.any (fun r => r.id == a && r.status != st') = true := by
  obtain ⟨row, hrow, hrs⟩ := agentStatus_some h
  refine List.any_eq_true.mpr ⟨row, getAgent_mem hrow, ?_⟩
  simp only [Bool.and_eq_true, beq_iff_eq, bne_iff_ne, ne_eq]
  exact ⟨getAgent_id hrow, by rw [hrs]; exact hne⟩

lemma find?_name_map (l : List AgentRow) (g : AgentRow → AgentRow)
    (hg : ∀ r, (g r).name = r.name) (a : String) :
    (l.map g).find? (fun r => r.name == a) =
      (l.find? (fun r => r.name == a)).map g := by
  have hp : ((fun r : AgentRow => r.name == a) ∘ g) = (fun r => r.name == a) := by
    funext r
    simp [Function.comp, hg]
  rw [List.find?_map, hp]

lemma reconnectDelayAfter_eq (n : Nat) :
    reconnectDelayAfter n = min (1000 * 2 ^ n) 30000 := by
  induction n with
  | zero => simp [reconnectDelayAfter]
  | succ n ih =>
    simp only [reconnectDelayAfter, scheduleReconnect, ih, pow_succ,
      ← mul_assoc]
    generalize 1000 * 2 ^ n = x
    omega

/-! ## Concrete fixtures used by counterexamples and witnesses -/

/-- A registered agent row. -/
def exAgent : AgentRow :=
  { id := "a", name := "mac", platform := none, meta := none, user_id := none,
    tenant_id := none, status := "online", last_seen_at := none,
    created_at := 0, updated_at := 0 }

/-- A stored inbound message event. -/
def exEvent1 : EventRecord :=
  { id := 0, agent_id := "a", seq := 1, type := "message_in", sender := "ios",
    payload := { status := none, content := some "hi" }, created_at := 0,
    user_id := none, tenant_id := none }

/-- A stored status event. -/
def exEvent2 : EventRecord :=
  { id := 1, agent_id := "a", seq := 2, type := "agent_status",
    sender := "system", payload := { status := some "online", content := none },
    created_at := 0, user_id := none, tenant_id := none }

/-- A small store: one agent, two events. -/
def exStore : Store :=
  { agents := [exAgent], events := [exEvent1, exEvent2], nextSeq := 3,
    nextEventId := 2 }

/-- A hub world over `exStore` with a producer connection (ws 1) and a
viewer connection (ws 2), both OPEN. -/
def exWorld : World :=
  { store := exStore,
    clientsByAgent := [("a", [{ ws := 1, agentId := "a", role := "pc" },
                              { ws := 2, agentId := "a", role := "ios" }])],
    agentStates := [("a", { lastHeartbeat := 0, pcConnections := [1] })],
    openConns := [1, 2] }

/-! ## Claim theorems -/

/-- C4: for every subject and every sincePosition, listing events returns
only events of that subject with position strictly greater than
sincePosition, in ascending position order, with at most `limit` events;
an out-of-range requested REST limit is clamped into 1–200 inclusive
rather than rejected; and calling again with the last returned position
continues the sequence without duplicates. -/
theorem listSince_bounded_ordered_resumable :
    ∀ s : Store, s.WF →
    ∀ (a : String) (since : Int) (lim : Nat) (tf : Option (List String)),
    (∀ e ∈ listEvents s a since lim tf, e.agent_id = a ∧ since < e.seq) ∧
    ((listEvents s a since lim tf).Pairwise (fun e₁ e₂ => e₁.seq < e₂.seq)) ∧
    ((listEvents s a since lim tf).length ≤ lim) ∧
    (∀ lq : Option Int, 1 ≤ clampLimit lq ∧ clampLimit lq ≤ 200) ∧
    (∀ (p' : Int) (lim' : Nat),
      (∀ e ∈ listEvents s a since lim tf, e.seq ≤ p') →
      ∀ e ∈ listEvents s a p' lim' tf, e ∉ listEvents s a since lim tf) := by
  intro s hwf a since lim tf
  refine ⟨?_, ?_, ?_, ?_, ?_⟩
  · intro e he
    exact eventMatches_agent_seq (mem_listEvents hwf he).2
  · rw [listEvents_eq hwf]
    exact List.Pairwise.sublist (List.take_sublist _ _)
      ((events_pairwise hwf).filter _)
  · rw [listEvents_eq hwf]
    exact List.length_take_le _ _
  · intro lq
    cases lq with
    | none => simp [clampLimit]
    | some v => simp only [clampLimit]; omega
  · intro p' lim' hle e he2 he1
    have h2 := (eventMatches_agent_seq (mem_listEvents hwf he2).2).2
    have h1 := hle e he1
    omega

/-- Witness for C4 at a concrete store. -/
theorem listSince_bounded_ordered_resumable_witness :
    (listEvents exStore "a" 0 5 none).length ≤ 5 ∧
    (1 ≤ clampLimit (some 500) ∧ clampLimit (some 500) ≤ 200) := by
  have h := listSince_bounded_ordered_resumable exStore (by decide) "a" 0 5 none
  exact ⟨h.2.2.1, h.2.2.2.1 (some 500)⟩

/-- C9: the REST message backlog endpoint filters results to message_in
and message_out only (so agent_status events never appear), whereas the
WebSocket subscribe catch-up applies no type filter: under the 200-event
cap it returns exactly the events of the subject after the position,
whatever their type. -/
theorem rest_filters_types_subscribe_does_not :
    (∀ (s : Store) (a : String) (sq lq : Option Int),
      ∀ e ∈ getMessages s a sq lq,
        e.type = "message_in" ∨ e.type = "message_out") ∧
    (∀ w : World, w.WF → ∀ (a : String) (since : Int),
      (w.store.events.filter
          (fun e => e.agent_id == a && decide (since < e.seq))).length ≤ 200 →
      listEvents w.store a since 200 none =
        w.store.events.filter
          (fun e => e.agent_id == a && decide (since < e.seq))) ∧
    (∀ (w : World) (a : String) (ws : Nat) (since : Option Int),
      ws ∈ w.openConns →
      handleSubscribe w a ws since =
        [(ws, OutMsg.eventsBatch (listEvents w.store a (since.getD 0) 200 none))]) := by
  refine ⟨?_, ?_, ?_⟩
  · intro s a sq lq e he
    unfold getMessages listEvents at he
    have h1 := List.mem_mergeSort.mp
      (List.Sublist.mem he (List.take_sublist _ _))
    have h2 := List.of_mem_filter h1
    unfold eventMatches at h2
    simp only [Bool.and_eq_true] at h2
    have h3 := h2.2
    simp [List.contains, List.elem_eq_mem] at h3
    exact h3
  · intro w hwf a since hlen
    rw [listEvents_eq hwf.1]
    have hcong : w.store.events.filter (eventMatches a since none) =
        w.store.events.filter (fun e => e.agent_id == a && decide (since < e.seq)) := by
      apply List.filter_congr
      intro e _
      unfold eventMatches
      simp
    rw [hcong]
    exact List.take_of_length_le hlen
  · intro w a ws since hopen
    unfold handleSubscribe sendTo
    simp [hopen]

/-- Witness for C9: on the concrete store the subscribe catch-up returns
the agent_status event, which the REST filter admits only message types. -/
theorem rest_filters_types_subscribe_does_not_witness :
    (∀ e ∈ getMessages exStore "a" (some 0) (some 50),
        e.type = "message_in" ∨ e.type = "message_out") ∧
    listEvents exStore "a" 0 200 none = [exEvent1, exEvent2] := by
  constructor
  · intro e he
    exact rest_filters_types_subscribe_does_not.1 exStore "a" (some 0) (some 50) e he
  · have h := rest_filters_types_subscribe_does_not.2.1 exWorld (by decide) "a" 0
      (by decide)
    exact h.trans (by decide)

/-- C10: a missing, unreadable or malformed local state file makes
`loadLastSeq` return 0 rather than fail, so the client subscribes with
since_seq 0 and receives the full backlog capped at 200. -/
theorem loadLastSeq_fallback_zero :
    ∀ f : StateFile,
      (f = StateFile.missing ∨ f = StateFile.invalid ∨
        f = StateFile.parsed none ∨ f = StateFile.parsed (some none)) →
      loadLastSeq f = 0 ∧
      ∀ (w : World) (a : String) (ws : Nat), w.WF → ws ∈ w.openConns →
        handleSubscribe w a ws (some (loadLastSeq f)) =
          [(ws, OutMsg.eventsBatch
            ((w.store.events.filter (fun e => e.agent_id == a)).take 200))] := by
  intro f hf
  have h0 : loadLastSeq f = 0 := by
    rcases hf with h | h | h | h <;> subst h <;> rfl
  refine ⟨h0, ?_⟩
  intro w a ws hwf hopen
  rw [h0]
  unfold handleSubscribe sendTo
  simp only [Option.getD_some]
  rw [listEvents_eq hwf.1]
  have hcong : w.store.events.filter (eventMatches a 0 none) =
      w.store.events.filter (fun e => e.agent_id == a) := by
    apply List.filter_congr
    intro e he
    have hseq : 1 ≤ e.seq := hwf.1.2.1 e he
    unfold eventMatches
    have : decide ((0 : Int) < e.seq) = true := decide_eq_true (by omega)
    simp [this]
  rw [hcong]
  simp [hopen]

/-- Witness for C10 at the concrete world. -/
theorem loadLastSeq_fallback_zero_witness :
    loadLastSeq StateFile.missing = 0 ∧
    handleSubscribe exWorld "a" 1 (some (loadLastSeq StateFile.missing)) =
      [(1, OutMsg.eventsBatch [exEvent1, exEvent2])] := by
  have h := loadLastSeq_fallback_zero StateFile.missing (Or.inl rfl)
  refine ⟨h.1, ?_⟩
  have h2 := h.2 exWorld "a" 1 (by decide) (by decide)
  rw [h2]
  decide

/-- C6: after each transport failure without an intervening successful
connect, the scheduled delay follows doubling-with-cap from the initial
1000ms: it is min(1000·2ⁿ, 30000), monotonically non-decreasing, at most
the 30s cap, and equal to the cap from the 6th failure on; a successful
connect resets the stored delay to the initial value. -/
theorem reconnect_backoff_doubles_to_cap :
    (∀ n : Nat, scheduledDelay n = min (1000 * 2 ^ n) 30000) ∧
    scheduledDelay 0 = delayOnOpen ∧
    (∀ n : Nat, scheduledDelay (n + 1) = min (2 * scheduledDelay n) 30000) ∧
    (∀ n : Nat, scheduledDelay n ≤ scheduledDelay (n + 1)) ∧
    (∀ n : Nat, scheduledDelay n ≤ 30000) ∧
    (∀ n : Nat, 5 ≤ n → scheduledDelay n = 30000) ∧
    reconnectDelayAfter 0 = delayOnOpen := by
  have hc : ∀ n : Nat, scheduledDelay n = min (1000 * 2 ^ n) 30000 := by
    intro n
    unfold scheduledDelay scheduleReconnect
    exact reconnectDelayAfter_eq n
  refine ⟨hc, by simp [hc, delayOnOpen], ?_, ?_, ?_, ?_, rfl⟩
  · intro n
    rw [hc, hc, pow_succ, ← mul_assoc]
    generalize 1000 * 2 ^ n = x
    omega
  · intro n
    rw [hc, hc, pow_succ, ← mul_assoc]
    generalize 1000 * 2 ^ n = x
    omega
  · intro n
    rw [hc]
    omega
  · intro n hn
    rw [hc]
    have h32 : (32 : Nat) ≤ 2 ^ n := by
      calc (32 : Nat) = 2 ^ 5 := by norm_num
      _ ≤ 2 ^ n := Nat.pow_le_pow_right (by norm_num) hn
    have := Nat.mul_le_mul_left 1000 h32
    omega

/-- Witness for C6: the sixth failure schedules the cap. -/
theorem reconnect_backoff_doubles_to_cap_witness :
    scheduledDelay 5 = 30000 :=
  reconnect_backoff_doubles_to_cap.2.2.2.2.2.1 5 (by norm_num)

/-- C7: registration is idempotent on name — registering the same name
twice returns the same subject id both times and does not create a second
subject record. -/
theorem register_idempotent_by_name (s : Store) (f1 f2 : String)
    (i1 i2 : RegisterAgentInput) (t1 t2 : Int) (hname : i1.name = i2.name) :
    (registerAgent (registerAgent s f1 i1 t1).1 f2 i2 t2).2 =
      (registerAgent s f1 i1 t1).2 ∧
    (registerAgent (registerAgent s f1 i1 t1).1 f2 i2 t2).1.agents.length =
      (registerAgent s f1 i1 t1).1.agents.length := by
  unfold registerAgent
  rw [← hname]
  cases h : s.agents.find? (fun r => r.name == i1.name) with
  | some row =>
    have hrow : (row.name == i1.name) = true :=
      List.find?_some (p := fun r : AgentRow => r.name == i1.name) h
    simp only [h]
    rw [find?_name_map _ _ (by
      intro r
      by_cases hr : (r.name == i1.name) = true <;> simp [hr]) i1.name]
    rw [h]
    have hr' : row.name = i1.name := by simpa using hrow
    simp [hr']
  | none =>
    simp only [h]
    rw [List.find?_append, h]
    simp [List.find?]

/-- Witness for C7 on the concrete store. -/
theorem register_idempotent_by_name_witness :
    (registerAgent (registerAgent exStore "id2"
        { name := "mac2" } 0).1 "id3" { name := "mac2" } 1).2 =
      (registerAgent exStore "id2" { name := "mac2" } 0).2 :=
  (register_idempotent_by_name exStore "id2" "id3"
    { name := "mac2" } { name := "mac2" } 0 1 rfl).1

/-- C8: a connection for an unknown subject id gets an error message, that
connection (and only it) is closed, and the whole world — store, client
registry and liveness state — is left unchanged, so no subject record is
created and the failure is fatal only to that connection. -/
theorem unknown_agent_connection_rejected (w : World) (ws : Nat)
    (a role : String) (now : Int) (h : getAgent w.store a = none)
    (hopen : ws ∈ w.openConns) :
    handleConnection w ws a role now =
      (w, [(ws, OutMsg.errorMsg "Unknown agent_id.")], [ws]) := by
  unfold handleConnection sendTo
  rw [h]
  simp [hopen]

/-- Witness for C8 at the concrete world and an unknown id. -/
theorem unknown_agent_connection_rejected_witness :
    handleConnection exWorld 1 "zzz" "pc" 0 =
      (exWorld, [(1, OutMsg.errorMsg "Unknown agent_id.")], [1]) :=
  unknown_agent_connection_rejected exWorld 1 "zzz" "pc" 0 (by decide)
    (by decide)

/-- A valid inbound publish message body. -/
def exIncoming : IncomingEvent :=
  { type := some "message_out", sender := some "pc",
    payload := { status := none, content := some "out" },
    user_id := none, tenant_id := none }

/-- C1 counterexample: in `exWorld` the publish arrives on the producer
connection ws 1, the only live producer of subject "a"; the hub's fan-out
nonetheless delivers the stored event back to ws 1 — the publisher does
receive an echo of its own event, contradicting the claim. -/
theorem publish_echoed_to_publisher_cex :
    (1, OutMsg.event
      { id := 2, agent_id := "a", seq := 3, type := "message_out",
        sender := "pc", payload := { status := none, content := some "out" },
        created_at := 5, user_id := none, tenant_id := none })
      ∈ (handleIncomingEvent exWorld "a" (some exIncoming) 5).2 := by
  decide

/-- C1 (amended): for every inbound publish message handled on a live
connection, the event is durably appended and then fanned out to every
live (OPEN) connection registered on the same subject — including the
publishing connection itself, which does receive its own echo. -/
theorem publish_appends_then_fans_out_to_all (w : World) (a : String)
    (ev : IncomingEvent) (now : Int) (c : ClientInfo)
    (hc : c ∈ lookupClients w a) (hopen : c.ws ∈ w.openConns) :
    (handleIncomingEvent w a (some ev) now).1.store.events =
      w.store.events ++
        [(insertEvent w.store a (ev.type.getD "message_out")
            (ev.sender.getD "pc") ev.payload ev.user_id ev.tenant_id now).2] ∧
    (c.ws, OutMsg.event
        ((insertEvent w.store a (ev.type.getD "message_out")
            (ev.sender.getD "pc") ev.payload ev.user_id ev.tenant_id now).2))
      ∈ (handleIncomingEvent w a (some ev) now).2 := by
  constructor
  · rfl
  · show _ ∈ broadcast _ a _
    unfold broadcast
    rw [List.mem_flatMap]
    exact ⟨c, hc, by simp [sendTo, hopen]⟩

/-- Witness for the amended C1 at the concrete world: the producer
connection ws 1 is among the receivers. -/
theorem publish_appends_then_fans_out_to_all_witness :
    (handleIncomingEvent exWorld "a" (some exIncoming) 5).1.store.events =
      exWorld.store.events ++
        [(insertEvent exWorld.store "a" (exIncoming.type.getD "message_out")
            (exIncoming.sender.getD "pc") exIncoming.payload
            exIncoming.user_id exIncoming.tenant_id 5).2] ∧
    ((1 : Nat), OutMsg.event
        ((insertEvent exWorld.store "a" (exIncoming.type.getD "message_out")
            (exIncoming.sender.getD "pc") exIncoming.payload
            exIncoming.user_id exIncoming.tenant_id 5).2))
      ∈ (handleIncomingEvent exWorld "a" (some exIncoming) 5).2 :=
  publish_appends_then_fans_out_to_all exWorld "a" exIncoming 5
    { ws := 1, agentId := "a", role := "pc" } (by decide) (by decide)

lemma chunkOutput_flatten (s : List Char) : (chunkOutput s).flatten = s := by
  induction s using chunkOutput.induct with
  | case1 s h =>
    rw [List.isEmpty_iff] at h
    rw [chunkOutput]
    simp [h]
  | case2 s h ih =>
    rw [chunkOutput, if_neg h, List.flatten_cons, ih]
    exact List.take_append_drop _ s

lemma chunkOutput_chunk_le (s : List Char) :
    ∀ ch ∈ chunkOutput s, ch.length ≤ OUTPUT_CHUNK_SIZE := by
  induction s using chunkOutput.induct with
  | case1 s h =>
    rw [chunkOutput]
    simp [h]
  | case2 s h ih =>
    rw [chunkOutput, if_neg h]
    intro ch hch
    rcases List.mem_cons.mp hch with hc | hc
    · subst hc
      exact List.length_take_le _ _
    · exact ih ch hc

/-- The client state before any output arrives, with the socket open. -/
def exClient : ClientState :=
  { buffer := [], wsOpen := true, flushTimer := false, sent := [] }

/-- A client state with a pending idle timer and a two-character buffer. -/
def exClient2 : ClientState :=
  { buffer := ['a', 'b'], wsOpen := true, flushTimer := true, sent := [] }

/-- C3 counterexample: a single burst of output larger than
`OUTPUT_CHUNK_SIZE` arrives on an open socket; the claim says the buffer
exceeding the maximum chunk size triggers a flush, but the client sends
nothing — `onData` only re-arms the idle timer, so the whole oversized
buffer sits unflushed. -/
theorem no_flush_when_buffer_exceeds_chunk_cex :
    (clientStep exClient (ClientEvent.onData (List.replicate 4001 'x'))).sent
        = [] ∧
    OUTPUT_CHUNK_SIZE <
      (clientStep exClient
        (ClientEvent.onData (List.replicate 4001 'x'))).buffer.length := by
  constructor
  · rfl
  · show OUTPUT_CHUNK_SIZE < (([] : List Char) ++ List.replicate 4001 'x').length
    rw [List.nil_append, List.length_replicate]
    norm_num [OUTPUT_CHUNK_SIZE]

/-- C3 (amended): output arrival never flushes by itself, however large
the buffer grows — it only appends to the buffer and re-arms the 800ms
idle timer; when the idle timer fires with the socket open and a nonempty
buffer, the whole buffer is flushed as one `message_out` event per chunk,
split at the `OUTPUT_CHUNK_SIZE` boundary so that no chunk exceeds that
size and the concatenation of the chunks equals the buffered output. -/
theorem flush_on_idle_only_and_chunked (c : ClientState) (d : List Char) :
    ((clientStep c (ClientEvent.onData d)).sent = c.sent ∧
      (clientStep c (ClientEvent.onData d)).buffer = c.buffer ++ d ∧
      (clientStep c (ClientEvent.onData d)).flushTimer = true) ∧
    (c.flushTimer = true → c.wsOpen = true → c.buffer ≠ [] →
      (clientStep c ClientEvent.idleFire).sent =
        c.sent ++ chunkOutput c.buffer ∧
      (clientStep c ClientEvent.idleFire).buffer = []) ∧
    (∀ ch ∈ chunkOutput c.buffer, ch.length ≤ OUTPUT_CHUNK_SIZE) ∧
    (chunkOutput c.buffer).flatten = c.buffer := by
  refine ⟨⟨rfl, rfl, rfl⟩, ?_, chunkOutput_chunk_le c.buffer,
    chunkOutput_flatten c.buffer⟩
  intro ht hw hb
  have hbe : c.buffer.isEmpty = false := List.isEmpty_eq_false.mpr hb
  constructor
  · simp [clientStep, ht, flushOutput, hbe, hw]
  · simp [clientStep, ht, flushOutput, hbe, hw]

/-- Witness for the amended C3: flushing a two-character buffer on timer
fire. -/
theorem flush_on_idle_only_and_chunked_witness :
    (clientStep exClient2 ClientEvent.idleFire).sent =
      ([] : List (List Char)) ++ chunkOutput ['a', 'b'] ∧
    (clientStep exClient2 ClientEvent.idleFire).buffer = [] :=
  (flush_on_idle_only_and_chunked exClient2 []).2.1 rfl rfl (by decide)

/-- The `agent_status` event `emitAgentStatus` appends, at a given event
id and position. -/
def sysStatusEvent (eid : Nat) (sq : Int) (a status : String) (now : Int) :
    EventRecord :=
  { id := eid, agent_id := a, seq := sq, type := "agent_status",
    sender := "system", payload := { status := some status, content := none },
    created_at := now, user_id := none, tenant_id := none }

lemma getState_store (w : World) (a : String) (now : Int) :
    ((getState w a now).2).store = w.store := by
  unfold getState
  cases lookupState w a <;> rfl

lemma setClients_store (w : World) (a : String) (cs : List ClientInfo) :
    (setClients w a cs).store = w.store := by
  unfold setClients
  by_cases h : w.clientsByAgent.any (fun p => p.1 == a) <;> simp [h]

lemma emitAgentStatus_store_events (w : World) (a st : String) (now : Int) :
    (emitAgentStatus w a st now).1.store.events =
      w.store.events ++
        [sysStatusEvent w.store.nextEventId w.store.nextSeq a st now] :=
  rfl

lemma markOnline_store_false {w : World} {a : String} {now : Int}
    (hany : w.store.agents.any
      (fun r => r.id == a && r.status != "online") = false) :
    (markOnline w a now).1.store.events = w.store.events ∧
    (markOnline w a now).1.store.nextSeq = w.store.nextSeq ∧
    (markOnline w a now).1.store.nextEventId = w.store.nextEventId := by
  have h2 : (setAgentStatus w.store a "online" now).2 = false := hany
  simp only [markOnline]
  rw [h2]
  simp [touchAgent, setAgentStatus]

lemma markOnline_store_true {w : World} {a : String} {now : Int}
    (hany : w.store.agents.any
      (fun r => r.id == a && r.status != "online") = true) :
    (markOnline w a now).1.store.events =
      w.store.events ++
        [sysStatusEvent w.store.nextEventId w.store.nextSeq a "online" now] ∧
    (markOnline w a now).1.store.nextSeq = w.store.nextSeq + 1 ∧
    (markOnline w a now).1.store.nextEventId = w.store.nextEventId + 1 := by
  have h2 : (setAgentStatus w.store a "online" now).2 = true := hany
  simp only [markOnline]
  rw [h2]
  simp [emitAgentStatus, insertEvent, sysStatusEvent, touchAgent,
    setAgentStatus]

/-- C2: an `online` status event is appended exactly on an actual
offline→online transition — on a heartbeat while offline or on a
producer-role connection attach while offline; a heartbeat while already
online appends no online event; every heartbeat appends exactly one
distinct `heartbeat` status event; a producer attach while already online
appends nothing. -/
theorem online_status_event_only_on_transition (w : World) (a : String)
    (now : Int) (ws : Nat) (hwf : w.WF) :
    (agentStatus w.store a = some "online" →
      (handleHeartbeat w a now).1.store.events =
        w.store.events ++
          [sysStatusEvent w.store.nextEventId w.store.nextSeq a "heartbeat" now]) ∧
    (agentStatus w.store a = some "offline" →
      (handleHeartbeat w a now).1.store.events =
        w.store.events ++
          [sysStatusEvent w.store.nextEventId w.store.nextSeq a "online" now,
           sysStatusEvent (w.store.nextEventId + 1) (w.store.nextSeq + 1) a
             "heartbeat" now]) ∧
    (agentStatus w.store a = some "offline" →
      (handleConnection w ws a "pc" now).1.store.events =
        w.store.events ++
          [sysStatusEvent w.store.nextEventId w.store.nextSeq a "online" now]) ∧
    (agentStatus w.store a = some "online" →
      (handleConnection w ws a "pc" now).1.store.events = w.store.events) := by
  have hhb : ∀ v : World, v.store = w.store →
      (handleHeartbeat v a now).1.store.events =
        (emitAgentStatus (markOnline (updateState (getState v a now).2 a
          (fun st => { st with lastHeartbeat := now })) a now).1 a
          "heartbeat" now).1.store.events := fun v _ => rfl
  refine ⟨?_, ?_, ?_, ?_⟩
  · intro h
    have hany : w.store.agents.any
        (fun r => r.id == a && r.status != "online") = false :=
      any_ne_status_false hwf.1.2.2.1 h
    rw [hhb w rfl]
    have hw1 : (updateState (getState w a now).2 a
        (fun st => { st with lastHeartbeat := now })).store = w.store :=
      getState_store w a now
    obtain ⟨he, hs, hi⟩ := markOnline_store_false (by rw [hw1]; exact hany)
    rw [emitAgentStatus_store_events, he, hs, hi, hw1]
  · intro h
    have hany : w.store.agents.any
        (fun r => r.id == a && r.status != "online") = true :=
      any_ne_status_true h (by decide)
    rw [hhb w rfl]
    have hw1 : (updateState (getState w a now).2 a
        (fun st => { st with lastHeartbeat := now })).store = w.store :=
      getState_store w a now
    obtain ⟨he, hs, hi⟩ := markOnline_store_true (by rw [hw1]; exact hany)
    rw [emitAgentStatus_store_events, he, hs, hi, hw1]
    simp
  · intro h
    obtain ⟨row, hrow, hst⟩ := agentStatus_some h
    have hany : w.store.agents.any
        (fun r => r.id == a && r.status != "online") = true :=
      any_ne_status_true h (by decide)
    unfold handleConnection
    rw [hrow]
    have hw3 : (updateState (getState (setClients w a
        (lookupClients w a ++ [{ ws := ws, agentId := a, role := "pc" }])) a
          now).2 a (fun st =>
            { st with
                pcConnections :=
                  if ws ∈ st.pcConnections then st.pcConnections
                  else st.pcConnections ++ [ws],
                lastHeartbeat := now })).store = w.store := by
      rw [show ∀ v : World, ∀ f, (updateState v a f).store = v.store
            from fun v f => rfl]
      rw [getState_store, setClients_store]
    obtain ⟨he, hs, hi⟩ := markOnline_store_true (by rw [hw3]; exact hany)
    simpa [hw3] using he
  · intro h
    obtain ⟨row, hrow, hst⟩ := agentStatus_some h
    have hany : w.store.agents.any
        (fun r => r.id == a && r.status != "online") = false :=
      any_ne_status_false hwf.1.2.2.1 h
    unfold handleConnection
    rw [hrow]
    have hw3 : (updateState (getState (setClients w a
        (lookupClients w a ++ [{ ws := ws, agentId := a, role := "pc" }])) a
          now).2 a (fun st =>
            { st with
                pcConnections :=
                  if ws ∈ st.pcConnections then st.pcConnections
                  else st.pcConnections ++ [ws],
                lastHeartbeat := now })).store = w.store := by
      rw [show ∀ v : World, ∀ f, (updateState v a f).store = v.store
            from fun v f => rfl]
      rw [getState_store, setClients_store]
    obtain ⟨he, hs, hi⟩ := markOnline_store_false (by rw [hw3]; exact hany)
    simpa [hw3] using he

/-- Witness for C2: a heartbeat at the concrete world, whose agent is
online, appends exactly one heartbeat status event. -/
theorem online_status_event_only_on_transition_witness :
    (handleHeartbeat exWorld "a" 7).1.store.events =
      exWorld.store.events ++
        [sysStatusEvent exWorld.store.nextEventId exWorld.store.nextSeq "a"
          "heartbeat" 7] :=
  (online_status_event_only_on_transition exWorld "a" 7 9 (by decide)).1
    (by decide)

lemma getAgent_congr {s s' : Store} (h : s.agents = s'.agents) (a : String) :
    getAgent s a = getAgent s' a := by
  unfold getAgent
  rw [h]

lemma lookupState_updateState (w : World) (b : String)
    (f : AgentState → AgentState) (a : String) :
    lookupState (updateState w b f) a =
      if a = b then (lookupState w a).map f else lookupState w a := by
  unfold lookupState updateState
  rw [find?_key_map _ _ (by
    intro p
    by_cases h : p.1 == b <;> simp [h]) a]
  cases hf : w.agentStates.find? (fun p => p.1 == a) with
  | none => simp
  | some p =>
    have hp : p.1 = a := by
      simpa using List.find?_some (p := fun q : String × AgentState => q.1 == a) hf
    by_cases hab : a = b
    · subst hab
      simp [hp]
    · simp [hp, hab]

lemma getAgent_setAgentStatus_ne {s : Store} {a b st : String} {now : Int}
    (hab : a ≠ b) :
    getAgent (setAgentStatus s b st now).1 a = getAgent s a := by
  rw [getAgent_setAgentStatus]
  cases hf : getAgent s a with
  | none => rfl
  | some r =>
    have hra : r.id = a := getAgent_id hf
    simp [hra, hab]

lemma markOffline_agentStates (w : World) (b : String) (now : Int) :
    (markOffline w b now).1.agentStates = w.agentStates := by
  cases h : (setAgentStatus w.store b "offline" now).2 with
  | false =>
    simp only [markOffline]
    rw [h]
    simp
  | true =>
    simp only [markOffline]
    rw [h]
    simp [emitAgentStatus, insertEvent]

lemma markOffline_store_agents (w : World) (b : String) (now : Int) :
    (markOffline w b now).1.store.agents =
      (setAgentStatus w.store b "offline" now).1.agents := by
  cases h : (setAgentStatus w.store b "offline" now).2 with
  | false =>
    simp only [markOffline]
    rw [h]
    simp
  | true =>
    simp only [markOffline]
    rw [h]
    simp [emitAgentStatus, insertEvent]

lemma lookupState_markOffline (w : World) (b : String) (now : Int)
    (a : String) :
    lookupState (markOffline w b now).1 a = lookupState w a := by
  unfold lookupState
  rw [markOffline_agentStates]

lemma agentStatus_markOffline_ne {w : World} {a b : String} {now : Int}
    (hab : a ≠ b) :
    agentStatus (markOffline w b now).1.store a = agentStatus w.store a := by
  unfold agentStatus
  rw [getAgent_congr (markOffline_store_agents w b now) a,
    getAgent_setAgentStatus_ne hab]

lemma markOffline_status_self {w : World} {b : String} {now : Int}
    {row : AgentRow} (hrow : getAgent w.store b = some row) :
    agentStatus (markOffline w b now).1.store b = some "offline" := by
  unfold agentStatus
  rw [getAgent_congr (markOffline_store_agents w b now) b,
    getAgent_setAgentStatus, hrow]
  have hid : row.id = b := getAgent_id hrow
  cases hs : (row.status != "offline") with
  | true =>
    have hne : row.status ≠ "offline" := by simpa using hs
    simp [hid, hne]
  | false =>
    have hoff : row.status = "offline" := by simpa using hs
    simp [hoff]

lemma sweepOne_self_idle_stale {w : World} {a : String} {now : Int}
    {st : AgentState} {row : AgentRow}
    (hls : lookupState w a = some st) (hempty : st.pcConnections = [])
    (hstale : OFFLINE_GRACE_MS < now - st.lastHeartbeat)
    (hrow : getAgent w.store a = some row) :
    agentStatus (sweepOne w now a).1.store a = some "offline" ∧
    lookupState (sweepOne w now a).1 a = some st ∧
    (sweepOne w now a).2.2 = [] := by
  have h1 : st.pcConnections.isEmpty = true := by simp [hempty]
  have hsw : sweepOne w now a =
      ((markOffline w a now).1, (markOffline w a now).2, []) := by
    unfold sweepOne
    rw [hls]
    simp [h1, hstale]
  rw [hsw]
  exact ⟨markOffline_status_self hrow,
    (lookupState_markOffline w a now a).trans hls, rfl⟩

/-- The world after the sweep terminates an agent's stale producer
connections (removing them from the OPEN set). -/
def terminateConns (w : World) (st : AgentState) : World :=
  { w with
      openConns := w.openConns.filter (fun c => !st.pcConnections.contains c) }

lemma sweepOne_self_conn_stale {w : World} {a : String} {now : Int}
    {st : AgentState} {row : AgentRow}
    (hls : lookupState w a = some st) (hne : st.pcConnections ≠ [])
    (hstale : OFFLINE_GRACE_MS < now - st.lastHeartbeat)
    (hrow : getAgent w.store a = some row) :
    agentStatus (sweepOne w now a).1.store a = some "offline" ∧
    lookupState (sweepOne w now a).1 a = some { st with pcConnections := [] } ∧
    (sweepOne w now a).2.2 = st.pcConnections := by
  have h1 : st.pcConnections.isEmpty = false := List.isEmpty_eq_false.mpr hne
  have hsw : sweepOne w now a =
      ((markOffline (updateState (terminateConns w st) a
          (fun s => { s with pcConnections := [] })) a now).1,
       (markOffline (updateState (terminateConns w st) a
          (fun s => { s with pcConnections := [] })) a now).2,
       st.pcConnections) := by
    unfold sweepOne terminateConns
    rw [hls]
    simp [h1, hstale]
  rw [hsw]
  refine ⟨markOffline_status_self hrow, ?_, rfl⟩
  rw [lookupState_markOffline, lookupState_updateState]
  have hw1 : lookupState (terminateConns w st) a = some st := hls
  simp [hw1]

lemma sweepOne_self_fresh {w : World} {a : String} {now : Int}
    {st : AgentState}
    (hls : lookupState w a = some st)
    (hfresh : ¬ OFFLINE_GRACE_MS < now - st.lastHeartbeat) :
    sweepOne w now a = (w, [], []) := by
  unfold sweepOne
  rw [hls]
  by_cases h1 : st.pcConnections.isEmpty <;> simp [h1, hfresh]

lemma sweepOne_frame {w : World} {now : Int} {b a : String} (hab : a ≠ b) :
    agentStatus (sweepOne w now b).1.store a = agentStatus w.store a ∧
    lookupState (sweepOne w now b).1 a = lookupState w a := by
  unfold sweepOne
  cases hls : lookupState w b with
  | none => exact ⟨rfl, rfl⟩
  | some st =>
    by_cases h1 : st.pcConnections.isEmpty
    · by_cases h2 : OFFLINE_GRACE_MS < now - st.lastHeartbeat
      · simp only [h1, if_true, if_pos h2]
        exact ⟨agentStatus_markOffline_ne hab,
          (lookupState_markOffline w b now a)⟩
      · simp [h1, h2]
    · have h1' : st.pcConnections.isEmpty = false := Bool.eq_false_iff.mpr h1
      by_cases h2 : OFFLINE_GRACE_MS < now - st.lastHeartbeat
      · simp only [h1', Bool.false_eq_true, if_false, if_pos h2]
        constructor
        · rw [agentStatus_markOffline_ne hab]
          rfl
        · rw [lookupState_markOffline, lookupState_updateState]
          simp [hab]
          rfl
      · simp [h1', h2]

lemma sweep_fold_frame (now : Int) (l : List (String × AgentState))
    (a : String) (hno : ∀ p ∈ l, p.1 ≠ a) :
    ∀ acc : World × List (Nat × OutMsg) × List Nat,
      agentStatus (l.foldl (sweepStep now) acc).1.store a =
        agentStatus acc.1.store a ∧
      lookupState (l.foldl (sweepStep now) acc).1 a = lookupState acc.1 a := by
  induction l with
  | nil =>
    intro acc
    exact ⟨rfl, rfl⟩
  | cons p t ih =>
    intro acc
    have hpa : a ≠ p.1 := Ne.symm (hno p (List.mem_cons_self p t))
    have hframe : agentStatus (sweepOne acc.1 now p.1).1.store a =
        agentStatus acc.1.store a ∧
        lookupState (sweepOne acc.1 now p.1).1 a = lookupState acc.1 a :=
      sweepOne_frame hpa
    rw [List.foldl_cons]
    obtain ⟨i1, i2⟩ := ih (fun q hq => hno q (List.mem_cons_of_mem p hq))
      (sweepStep now acc p)
    constructor
    · rw [i1]
      exact hframe.1
    · rw [i2]
      exact hframe.2

lemma sweep_fold_term_mono (now : Int) (l : List (String × AgentState)) :
    ∀ (acc : World × List (Nat × OutMsg) × List Nat) (x : Nat),
      x ∈ acc.2.2 → x ∈ (l.foldl (sweepStep now) acc).2.2 := by
  induction l with
  | nil =>
    intro acc x hx
    exact hx
  | cons p t ih =>
    intro acc x hx
    rw [List.foldl_cons]
    apply ih
    show x ∈ acc.2.2 ++ (sweepOne acc.1 now p.1).2.2
    exact List.mem_append_left _ hx

/-- C5: on each sweep, for every tracked subject: with no attached
producer connections and a heartbeat older than the 30s grace threshold it
is transitioned offline; with attached producer connections and a stale
heartbeat those connections are terminated, the attachment set is cleared
and it is transitioned offline; with a recent heartbeat its status and
liveness state are left unchanged. -/
theorem sweep_grace_period_transitions (w : World) (now : Int) (hwf : w.WF)
    (a : String) (st : AgentState) (hst : lookupState w a = some st) :
    (st.pcConnections = [] → OFFLINE_GRACE_MS < now - st.lastHeartbeat →
      agentStatus (sweep w now).1.store a = some "offline") ∧
    (st.pcConnections ≠ [] → OFFLINE_GRACE_MS < now - st.lastHeartbeat →
      agentStatus (sweep w now).1.store a = some "offline" ∧
      lookupState (sweep w now).1 a = some { st with pcConnections := [] } ∧
      (∀ c ∈ st.pcConnections, c ∈ (sweep w now).2.2)) ∧
    (¬ OFFLINE_GRACE_MS < now - st.lastHeartbeat →
      agentStatus (sweep w now).1.store a = agentStatus w.store a ∧
      lookupState (sweep w now).1 a = some st) := by
  obtain ⟨p, hf, hp1, hp2⟩ : ∃ p, w.agentStates.find?
      (fun q => q.1 == a) = some p ∧ p.1 = a ∧ p.2 = st := by
    unfold lookupState at hst
    cases hf : w.agentStates.find? (fun q => q.1 == a) with
    | none =>
      rw [hf] at hst
      cases hst
    | some p =>
      rw [hf] at hst
      have hsome : some p.2 = some st := hst
      refine ⟨p, rfl, ?_, Option.some.inj hsome⟩
      simpa using List.find?_some
        (p := fun q : String × AgentState => q.1 == a) hf
  obtain ⟨hpred, as, bs, hsplit, hpre⟩ := List.find?_eq_some.mp hf
  have has : ∀ q ∈ as, q.1 ≠ a := by
    intro q hq hqa
    have hq2 := hpre q hq
    simp [hqa] at hq2
  have hbs : ∀ q ∈ bs, q.1 ≠ a := by
    have hkeys := hwf.2.1
    rw [hsplit, List.map_append, List.map_cons] at hkeys
    have h2 := (List.nodup_append.mp hkeys).2.1
    rw [List.nodup_cons] at h2
    intro q hq hqa
    exact h2.1 (by
      rw [hp1, ← hqa]
      exact List.mem_map_of_mem _ hq)
  have hpmem : p ∈ w.agentStates := by
    rw [hsplit]
    exact List.mem_append_right _ (List.mem_cons_self _ _)
  obtain ⟨r, hrmem, hrid⟩ := hwf.2.2 p hpmem
  have hrowSome : (getAgent w.store a).isSome := by
    unfold getAgent
    rw [List.find?_isSome]
    exact ⟨r, hrmem, by simp [hrid, hp1]⟩
  obtain ⟨row, hrow⟩ := Option.isSome_iff_exists.mp hrowSome
  have hsweep : sweep w now =
      bs.foldl (sweepStep now)
        (sweepStep now (as.foldl (sweepStep now) (w, [], [])) p) := by
    unfold sweep
    rw [hsplit, List.foldl_append, List.foldl_cons]
  obtain ⟨hacc1s, hacc1l⟩ := sweep_fold_frame now as a has (w, [], [])
  have hlsacc : lookupState (as.foldl (sweepStep now) (w, [], [])).1 a =
      some st := by
    rw [hacc1l]
    exact hst
  have hstacc : agentStatus (as.foldl (sweepStep now) (w, [], [])).1.store a =
      some row.status := by
    rw [hacc1s]
    show (getAgent w.store a).map (fun r => r.status) = some row.status
    rw [hrow]
    rfl
  obtain ⟨row2, hrow2⟩ : ∃ r2,
      getAgent (as.foldl (sweepStep now) (w, [], [])).1.store a = some r2 := by
    cases hg : getAgent (as.foldl (sweepStep now) (w, [], [])).1.store a with
    | none =>
      unfold agentStatus at hstacc
      rw [hg] at hstacc
      cases hstacc
    | some r2 => exact ⟨r2, rfl⟩
  obtain ⟨hfolds, hfoldl⟩ := sweep_fold_frame now bs a hbs
    (sweepStep now (as.foldl (sweepStep now) (w, [], [])) p)
  refine ⟨?_, ?_, ?_⟩
  · intro hempty hstale
    have hself := sweepOne_self_idle_stale hlsacc hempty hstale hrow2
    rw [hsweep, hfolds]
    show agentStatus (sweepOne (as.foldl (sweepStep now) (w, [], [])).1 now
      p.1).1.store a = some "offline"
    rw [hp1]
    exact hself.1
  · intro hne hstale
    have hself := sweepOne_self_conn_stale hlsacc hne hstale hrow2
    refine ⟨?_, ?_, ?_⟩
    · rw [hsweep, hfolds]
      show agentStatus (sweepOne (as.foldl (sweepStep now) (w, [], [])).1 now
        p.1).1.store a = some "offline"
      rw [hp1]
      exact hself.1
    · rw [hsweep, hfoldl]
      show lookupState (sweepOne (as.foldl (sweepStep now) (w, [], [])).1 now
        p.1).1 a = some { st with pcConnections := [] }
      rw [hp1]
      exact hself.2.1
    · intro c hc
      rw [hsweep]
      apply sweep_fold_term_mono
      show c ∈ (as.foldl (sweepStep now) (w, [], [])).2.2 ++
        (sweepOne (as.foldl (sweepStep now) (w, [], [])).1 now p.1).2.2
      apply List.mem_append_right
      rw [hp1, hself.2.2]
      exact hc
  · intro hfresh
    have hself := sweepOne_self_fresh hlsacc hfresh
    constructor
    · rw [hsweep, hfolds]
      show agentStatus (sweepOne (as.foldl (sweepStep now) (w, [], [])).1 now
        p.1).1.store a = agentStatus w.store a
      rw [hp1, hself]
      exact hacc1s
    · rw [hsweep, hfoldl]
      show lookupState (sweepOne (as.foldl (sweepStep now) (w, [], [])).1 now
        p.1).1 a = some st
      rw [hp1, hself]
      exact hlsacc

/-- The liveness state of the concrete world's agent. -/
def exState : AgentState := { lastHeartbeat := 0, pcConnections := [1] }

/-- Witness for C5: at the concrete world, a sweep 40s after the last
heartbeat terminates the stale producer connection, clears the attachment
set and transitions the agent offline. -/
theorem sweep_grace_period_transitions_witness :
    agentStatus (sweep exWorld 40000).1.store "a" = some "offline" ∧
    lookupState (sweep exWorld 40000).1 "a" =
      some { exState with pcConnections := [] } ∧
    (∀ c ∈ exState.pcConnections, c ∈ (sweep exWorld 40000).2.2) :=
  (sweep_grace_period_transitions exWorld 40000 (by decide) "a" exState
    (by decide)).2.1 (by decide) (by decide)

end CodeAgentSync
